import Mathlib

/-!
Formal verification of the Tendon Load Index (TLI) calculator.

The repository has two variants of a single-page calculator:
a richer per-climb model (namespace Rich) and a simplified
grade-fraction model (namespace Simple).  The numeric core of each
variant is embedded below over the real numbers; JavaScript numbers are
modelled as elements of the reals, so every value is finite and
`isFinite` guards are identically true.
-/

noncomputable section

/-- The clamp utility: min of the upper bound and the max of the lower
bound with the value.  Defined identically in both variants. -/
def clamp (n lo hi : ℝ) : ℝ := min hi (max lo n)

/-- Relative intensity from the delta to vMax (smooth logistic),
clamped to the interval from 0 to 1.15.  Defined identically in both
variants. -/
def riFromDeltaV (delta : ℝ) : ℝ :=
  clamp (0.35 + 0.75 / (1 + Real.exp (delta - 1.5))) 0 1.15

/-- The three grip types of the hangboard module.  The constructor
openHand renders the source literal for the open grip. -/
inductive Grip where
  | openHand
  | half
  | full
deriving DecidableEq

/-- Edge-depth scaling relative to the 20 mm reference edge.  Defined
identically in both variants (the source default k = 0.45 is always
overridden by callers, so the default is dropped). -/
def relEdge (edgeMM k : ℝ) : ℝ := (20 / edgeMM) ^ k

/-- Grip multiplier: 1.1 for full crimp, 0.85 for open, 1.0 for half.
Defined identically in both variants. -/
def gripMult : Grip → ℝ
  | .full => 1.1
  | .openHand => 0.85
  | .half => 1.0

/-- One hangboard row.  The optional calibration value mvc20kg is an
explicit Option.  The field shape is shared verbatim by the two
variants. -/
structure HangboardRow where
  bodyKg : ℝ
  addedKg : ℝ
  edgeMM : ℝ
  grip : Grip
  durationSec : ℝ
  reps : ℝ
  restBetweenRepsSec : ℝ
  mvc20kg : Option ℝ
  densityExpHB : ℝ
  kEdgeExp : ℝ

namespace Rich

/-- Freshness factor from rest days since the last climb. -/
def restFreshness (days : ℝ) : ℝ :=
  clamp (0.85 + 0.02 * min (max days 0) 10) 0.75 1.1

/-- Density factor from total time under tension versus total rest
(the source default exponent 0.5 is always overridden by callers, so
the default is dropped). -/
def densityFactor (totalTUTs totalRest densityExp : ℝ) : ℝ :=
  (totalTUTs / max 1 (totalTUTs + totalRest)) ^ densityExp

/-- Fatigue/novelty weight for climb i (1-indexed); a nonpositive rate
disables the decay. -/
def climbWeight (i fatigueRate : ℝ) : ℝ :=
  if fatigueRate ≤ 0 then 1 else Real.exp (-fatigueRate * (i - 1))

/-- One climb: grade on the V scale and time under tension in
seconds. -/
structure Climb where
  grade : ℝ
  tutSec : ℝ

/-- The parameter record of the bouldering module. -/
structure BoulderingParams where
  vMax : ℝ
  restDays : ℝ
  avgRestBetweenClimbsSec : ℝ
  densityExp : ℝ
  useDensity : Bool
  fatigueRate : ℝ
  climbs : List Climb

/-- The meta block returned next to the bouldering total. -/
structure BoulderMeta where
  totalTUT : ℝ
  totalRestWithin : ℝ
  FR : ℝ
  DF : ℝ

/-- The full return value of the bouldering module. -/
structure BoulderResult where
  TLI_boulder : ℝ
  meta : BoulderMeta

/-- The index-carrying reduce that accumulates per-climb
contributions: acc + RI(vMax - grade) * tutSec * climbWeight(idx+1)
for the 0-based running index idx.  Note the contribution uses the raw
tutSec, not a clamped one. -/
def contribGo (vMax fatigueRate : ℝ) : ℝ → ℕ → List Climb → ℝ
  | acc, _, [] => acc
  | acc, idx, c :: rest =>
      contribGo vMax fatigueRate
        (acc + riFromDeltaV (vMax - c.grade) * c.tutSec *
          climbWeight ((idx : ℝ) + 1) fatigueRate)
        (idx + 1) rest

/-- The bouldering TLI of the richer variant. -/
def boulderingTLI (p : BoulderingParams) : BoulderResult :=
  let totalClimbs := p.climbs.length
  let totalTUT := p.climbs.foldl (fun a c => a + max 0 c.tutSec) 0
  let totalRestWithin :=
    max 0 (((totalClimbs : ℝ) - 1) * max 0 p.avgRestBetweenClimbsSec)
  let FR := restFreshness p.restDays
  let DF :=
    if p.useDensity then densityFactor totalTUT totalRestWithin p.densityExp
    else 1
  let s := contribGo p.vMax p.fatigueRate 0 0 p.climbs
  ⟨FR * DF * s, ⟨totalTUT, totalRestWithin, FR, DF⟩⟩

/-- The return value of the richer variant's hangboard module. -/
structure HangboardSetResult where
  perSet : ℝ
  TUT : ℝ
  totalRest : ℝ
  DF : ℝ

/-- The hangboard set TLI of the richer variant. -/
def hangboardSetTLI (row : HangboardRow) : HangboardSetResult :=
  let mvc20 := row.mvc20kg.getD (row.bodyKg + 20)
  let mvcEdge := mvc20 * relEdge row.edgeMM row.kEdgeExp * gripMult row.grip
  let ri := clamp ((row.bodyKg + row.addedKg) / mvcEdge) 0 1.2
  let TUT := row.durationSec * row.reps
  let totalRest := row.restBetweenRepsSec * max 0 (row.reps - 1)
  let DF := (TUT / max 1 (TUT + totalRest)) ^ row.densityExpHB
  ⟨ri * TUT * DF, TUT, totalRest, DF⟩

/-- The spike flag computed by the session aggregator in the page
body: the historical average is positive and the session total exceeds
1.4 times it. -/
def spikeWarn (avg28d TLI_total : ℝ) : Prop :=
  0 < avg28d ∧ 1.4 * avg28d < TLI_total

/-- A rest-day recommendation: a minimum and a maximum number of
days. -/
structure RestRec where
  min : ℕ
  max : ℕ
deriving DecidableEq

/-- The rest-day recommendation heuristic: a step function of the
ratio to the 4-week average, with the minimum forced to 0 for session
totals under 500. -/
def recommendRestDays (TLI_total ratioToAvg : ℝ) : RestRec :=
  let base : RestRec :=
    if ratioToAvg < 0.8 then ⟨0, 1⟩
    else if ratioToAvg < 1.2 then ⟨1, 1⟩
    else if ratioToAvg < 1.6 then ⟨1, 2⟩
    else ⟨2, 3⟩
  if TLI_total < 500 then ⟨0, base.max⟩ else base

end Rich

namespace Simple

/-- One grade-fraction row of the simplified variant. -/
structure GradeFraction where
  grade : ℝ
  fraction : ℝ

/-- The parameter record of the simplified bouldering module. -/
structure BoulderingParams where
  vMax : ℝ
  totalMinutes : ℝ
  workRestRatio : ℝ
  gradeFractions : List GradeFraction
  useDensity : Bool

/-- The bouldering TLI of the simplified variant: work seconds derived
from total minutes and the work-to-rest ratio, an optional density
factor, and a grade-fraction weighted relative-intensity sum. -/
def boulderingTLI (p : BoulderingParams) : ℝ :=
  let fw := p.workRestRatio / (1 + p.workRestRatio)
  let Tw := p.totalMinutes * 60 * fw
  let DF := if p.useDensity then fw ^ (0.5 : ℝ) else 1
  DF * p.gradeFractions.foldl
    (fun acc g => acc + riFromDeltaV (p.vMax - g.grade) * (Tw * g.fraction)) 0

/-- The hangboard set TLI of the simplified variant; it returns the
per-set number directly. -/
def hangboardSetTLI (row : HangboardRow) : ℝ :=
  let mvc20 := row.mvc20kg.getD (row.bodyKg + 20)
  let mvcEdge := mvc20 * relEdge row.edgeMM row.kEdgeExp * gripMult row.grip
  let ri := clamp ((row.bodyKg + row.addedKg) / mvcEdge) 0 1.2
  let TUT := row.durationSec * row.reps
  let totalRest := row.restBetweenRepsSec * max 0 (row.reps - 1)
  let DF := (TUT / max 1 (TUT + totalRest)) ^ row.densityExpHB
  ri * TUT * DF

/-- Renormalization of the grade-fraction rows: each fraction is
divided by the positive total, or by 1 when the total is not positive.
Over the reals every fraction is finite, so the isFinite guard of the
source is identically true. -/
def normalizeFractions (rows : List GradeFraction) : List GradeFraction :=
  let s := rows.foldl (fun a r => a + r.fraction) 0
  let safe := if 0 < s then s else 1
  rows.map fun r => { r with fraction := r.fraction / safe }

/-- The displayed sum of the raw fractions. -/
def sumFractions (rows : List GradeFraction) : ℝ :=
  rows.foldl (fun a r => a + r.fraction) 0

end Simple

/-! ## Fold-to-sum lemmas -/

/-- A left fold that adds f of each element equals the initial value
plus the sum of the mapped list. -/
lemma foldl_add_map_sum {α : Type} (f : α → ℝ) :
    ∀ (l : List α) (a : ℝ),
      l.foldl (fun acc x => acc + f x) a = a + (l.map f).sum
  | [], a => by simp
  | x :: l, a => by
      rw [List.foldl_cons, foldl_add_map_sum f l (a + f x)]
      simp [add_assoc]

/-- The sum of a mapped list as a sum over the index range, reading
elements with getD at a default. -/
lemma map_sum_eq_range {α : Type} (f : α → ℝ) (d : α) :
    ∀ l : List α,
      (l.map f).sum = ∑ i ∈ Finset.range l.length, f (l.getD i d)
  | [] => by simp
  | x :: l => by
      rw [List.map_cons, List.sum_cons, map_sum_eq_range f d l,
        List.length_cons, Finset.sum_range_succ']
      simp [List.getD_cons_zero, List.getD_cons_succ]
      ring

/-- The default climb used to read list elements in statements. -/
def dClimb : Rich.Climb := ⟨0, 0⟩

/-- The index-carrying contribution fold equals the starting value
plus the range sum of per-climb contributions, with the weight index
shifted by the starting index. -/
lemma contribGo_eq_sum (v f : ℝ) :
    ∀ (l : List Rich.Climb) (k : ℕ) (a : ℝ),
      Rich.contribGo v f a k l =
        a + ∑ i ∈ Finset.range l.length,
          riFromDeltaV (v - (l.getD i dClimb).grade) *
            (l.getD i dClimb).tutSec *
            Rich.climbWeight ((k : ℝ) + (i : ℝ) + 1) f
  | [], k, a => by simp [Rich.contribGo]
  | c :: l, k, a => by
      simp only [Rich.contribGo]
      rw [contribGo_eq_sum v f l (k + 1)]
      rw [List.length_cons, Finset.sum_range_succ']
      simp only [List.getD_cons_zero, List.getD_cons_succ, Nat.cast_zero,
        Nat.cast_add, Nat.cast_one, add_zero]
      rw [Finset.sum_congr rfl (fun i _ => by
        rw [show (k : ℝ) + 1 + (i : ℝ) + 1 = (k : ℝ) + ((i : ℝ) + 1) + 1 by
          ring])]
      ring

/-! ## C1 -/

/-- C1: for every BoulderingParams of the richer variant,
boulderingTLI returns the freshness factor times the density factor
(when enabled, else 1) times the 1-indexed weighted contribution sum;
totalTUT sums the clamped per-climb times under tension, totalRestWithin
is the clamped inter-climb rest estimate, DF is derived from these two,
and the empty climb list yields a zero total. -/
theorem boulderingTLI_formula (p : Rich.BoulderingParams) :
    ((Rich.boulderingTLI p).TLI_boulder =
      Rich.restFreshness p.restDays *
      (if p.useDensity then
          Rich.densityFactor
            (∑ i ∈ Finset.range p.climbs.length,
              max 0 ((p.climbs.getD i dClimb).tutSec))
            (max 0 (((p.climbs.length : ℝ) - 1) *
              max 0 p.avgRestBetweenClimbsSec))
            p.densityExp
        else 1) *
      ∑ i ∈ Finset.range p.climbs.length,
        riFromDeltaV (p.vMax - (p.climbs.getD i dClimb).grade) *
          (p.climbs.getD i dClimb).tutSec *
          Rich.climbWeight ((i : ℝ) + 1) p.fatigueRate) ∧
    (Rich.boulderingTLI p).meta.totalTUT =
      (∑ i ∈ Finset.range p.climbs.length,
        max 0 ((p.climbs.getD i dClimb).tutSec)) ∧
    (Rich.boulderingTLI p).meta.totalRestWithin =
      max 0 (((p.climbs.length : ℝ) - 1) * max 0 p.avgRestBetweenClimbsSec) ∧
    (Rich.boulderingTLI p).meta.FR = Rich.restFreshness p.restDays ∧
    (Rich.boulderingTLI p).meta.DF =
      (if p.useDensity then
          Rich.densityFactor (Rich.boulderingTLI p).meta.totalTUT
            (Rich.boulderingTLI p).meta.totalRestWithin p.densityExp
        else 1) ∧
    (p.climbs = [] → (Rich.boulderingTLI p).TLI_boulder = 0) := by
  have hTUT : p.climbs.foldl (fun a c => a + max 0 c.tutSec) 0 =
      ∑ i ∈ Finset.range p.climbs.length,
        max 0 ((p.climbs.getD i dClimb).tutSec) := by
    rw [foldl_add_map_sum (fun c => max 0 c.tutSec) p.climbs 0,
      map_sum_eq_range (fun c => max 0 c.tutSec) dClimb p.climbs, zero_add]
  have hsum : Rich.contribGo p.vMax p.fatigueRate 0 0 p.climbs =
      ∑ i ∈ Finset.range p.climbs.length,
        riFromDeltaV (p.vMax - (p.climbs.getD i dClimb).grade) *
          (p.climbs.getD i dClimb).tutSec *
          Rich.climbWeight ((i : ℝ) + 1) p.fatigueRate := by
    rw [contribGo_eq_sum p.vMax p.fatigueRate p.climbs 0 0]
    simp
  refine ⟨?_, ?_, ?_, ?_, ?_, ?_⟩
  · simp only [Rich.boulderingTLI, hTUT, hsum]
  · simp only [Rich.boulderingTLI, hTUT]
  · simp only [Rich.boulderingTLI]
  · simp only [Rich.boulderingTLI]
  · simp only [Rich.boulderingTLI]
  · intro h
    simp [Rich.boulderingTLI, h, Rich.contribGo]

/-- C1 witness: at the concrete parameter block with an empty climb
list, the returned total is 0. -/
theorem boulderingTLI_formula_witness :
    (Rich.boulderingTLI ⟨8, 2, 90, 0.5, true, 0.02, []⟩).TLI_boulder = 0 :=
  (boulderingTLI_formula ⟨8, 2, 90, 0.5, true, 0.02, []⟩).2.2.2.2.2 rfl

/-! ## C3 -/

/-- Replace every climb whose tutSec is negative by the same climb
with tutSec 0; climbs with nonnegative tutSec are unchanged. -/
def clampNegClimbs (l : List Rich.Climb) : List Rich.Climb :=
  l.map fun c => ⟨c.grade, max 0 c.tutSec⟩

/-- C3 (amended): clamping negative per-climb times under tension to 0
leaves every returned meta value (totalTUT, totalRestWithin, FR, DF)
unchanged; the clamp is applied where tutSec enters totalTUT and hence
the density factor. -/
theorem boulderingTLI_meta_clamp (p : Rich.BoulderingParams) :
    (Rich.boulderingTLI { p with climbs := clampNegClimbs p.climbs }).meta =
      (Rich.boulderingTLI p).meta := by
  have hT : (p.climbs.map fun c =>
        (⟨c.grade, max 0 c.tutSec⟩ : Rich.Climb)).foldl
          (fun a c => a + max 0 c.tutSec) 0 =
      p.climbs.foldl (fun a c => a + max 0 c.tutSec) 0 := by
    rw [foldl_add_map_sum (fun c : Rich.Climb => max 0 c.tutSec)
        (p.climbs.map fun c => (⟨c.grade, max 0 c.tutSec⟩ : Rich.Climb)) 0,
      foldl_add_map_sum (fun c : Rich.Climb => max 0 c.tutSec) p.climbs 0]
    rw [List.map_map]
    have hfun : ((fun c : Rich.Climb => max 0 c.tutSec) ∘
        fun c : Rich.Climb => (⟨c.grade, max 0 c.tutSec⟩ : Rich.Climb)) =
        fun c : Rich.Climb => max 0 c.tutSec := by
      funext c
      show max 0 (max 0 c.tutSec) = max 0 c.tutSec
      exact max_eq_right (le_max_left _ _)
    rw [hfun]
  simp [Rich.boulderingTLI, hT, clampNegClimbs]

/-- C3 counterexample: with a single climb whose tutSec is negative,
clamping it to 0 changes the returned bouldering total, because the
per-climb contribution uses the raw tutSec. -/
theorem boulderingTLI_clamp_changes_total :
    (Rich.boulderingTLI
        ⟨5, 0, 0, 0.5, false, 0, clampNegClimbs [⟨5, -10⟩]⟩).TLI_boulder ≠
      (Rich.boulderingTLI ⟨5, 0, 0, 0.5, false, 0, [⟨5, -10⟩]⟩).TLI_boulder := by
  have hri : 0 < riFromDeltaV 0 := by
    have h2 : 0 < 0.35 + 0.75 / (1 + Real.exp ((0 : ℝ) - 1.5)) := by positivity
    show 0 < min 1.15 (max 0 (0.35 + 0.75 / (1 + Real.exp ((0 : ℝ) - 1.5))))
    exact lt_min (by norm_num) (lt_of_lt_of_le h2 (le_max_right 0 _))
  have hL : (Rich.boulderingTLI
      ⟨5, 0, 0, 0.5, false, 0, clampNegClimbs [⟨5, -10⟩]⟩).TLI_boulder = 0 := by
    norm_num [Rich.boulderingTLI, clampNegClimbs, Rich.contribGo]
  have hR : (Rich.boulderingTLI
      ⟨5, 0, 0, 0.5, false, 0, [⟨5, -10⟩]⟩).TLI_boulder =
      0.85 * (riFromDeltaV 0 * (-10)) := by
    norm_num [Rich.boulderingTLI, Rich.contribGo, Rich.climbWeight,
      Rich.restFreshness, clamp, min_def, max_def]
  rw [hL, hR]
  intro h
  nlinarith [hri]

/-! ## C9 -/

/-- C9: for every hangboard row, the simplified variant's
hangboardSetTLI equals the perSet field of the richer variant's
hangboardSetTLI. -/
theorem hangboard_variants_agree (row : HangboardRow) :
    Simple.hangboardSetTLI row = (Rich.hangboardSetTLI row).perSet := rfl

/-! ## C7 -/

/-- C7: the spike flag holds exactly when the historical average is
positive and the session total strictly exceeds 1.4 times it; with an
average of 1200 any total above 1680 raises the flag and a total of
exactly 1680 does not. -/
theorem spikeWarn_spec :
    (∀ avg t : ℝ, Rich.spikeWarn avg t ↔ 0 < avg ∧ 1.4 * avg < t) ∧
    (∀ t : ℝ, 1680 < t → Rich.spikeWarn 1200 t) ∧
    ¬ Rich.spikeWarn 1200 1680 := by
  refine ⟨fun avg t => Iff.rfl, fun t ht => ⟨by norm_num, by norm_num [ht]⟩, ?_⟩
  rintro ⟨-, h⟩
  norm_num at h

/-- C7 witness: the spike flag holds at average 1200 and total 1700. -/
theorem spikeWarn_spec_witness : Rich.spikeWarn 1200 1700 :=
  spikeWarn_spec.2.1 1700 (by norm_num)

/-! ## C6 -/

/-- C6: the recommendation is the step function of the ratio bands,
with the minimum forced to 0 whenever the total is below 500; the two
example inputs of the spec evaluate as stated. -/
theorem recommendRestDays_spec :
    (∀ t r : ℝ, Rich.recommendRestDays t r =
      ⟨if t < 500 then 0
        else if r < 0.8 then 0
        else if r < 1.2 then 1
        else if r < 1.6 then 1
        else 2,
        if r < 0.8 then 1
        else if r < 1.2 then 1
        else if r < 1.6 then 2
        else 3⟩) ∧
    Rich.recommendRestDays 2000 1.5 = ⟨1, 2⟩ ∧
    Rich.recommendRestDays 400 2 = ⟨0, 3⟩ := by
  refine ⟨fun t r => ?_, by norm_num [Rich.recommendRestDays],
    by norm_num [Rich.recommendRestDays]⟩
  simp only [Rich.recommendRestDays]
  split_ifs <;> rfl

/-! ## C8 -/

/-- C8: the relative-intensity curve is monotonically non-increasing
in delta and its value always lies between 0 and 1.15. -/
theorem riFromDeltaV_mono_bounded :
    (∀ a b : ℝ, a ≤ b → riFromDeltaV b ≤ riFromDeltaV a) ∧
    (∀ d : ℝ, 0 ≤ riFromDeltaV d ∧ riFromDeltaV d ≤ 1.15) := by
  constructor
  · intro a b hab
    show min 1.15 (max 0 (0.35 + 0.75 / (1 + Real.exp (b - 1.5)))) ≤
      min 1.15 (max 0 (0.35 + 0.75 / (1 + Real.exp (a - 1.5))))
    have h1 : 0 < 1 + Real.exp (a - 1.5) := by positivity
    have h2 : 1 + Real.exp (a - 1.5) ≤ 1 + Real.exp (b - 1.5) := by
      have := Real.exp_le_exp.2 (by linarith : a - 1.5 ≤ b - 1.5)
      linarith
    have hinner : 0.35 + 0.75 / (1 + Real.exp (b - 1.5)) ≤
        0.35 + 0.75 / (1 + Real.exp (a - 1.5)) := by gcongr
    exact min_le_min le_rfl (max_le_max le_rfl hinner)
  · intro d
    exact ⟨le_min (by norm_num) (le_max_left 0 _), min_le_left _ _⟩

/-- C8 witness: monotonicity and the bounds at concrete deltas. -/
theorem riFromDeltaV_mono_bounded_witness :
    riFromDeltaV 1 ≤ riFromDeltaV 0 ∧ 0 ≤ riFromDeltaV 2 ∧
      riFromDeltaV 2 ≤ 1.15 :=
  ⟨riFromDeltaV_mono_bounded.1 0 1 (by norm_num),
    (riFromDeltaV_mono_bounded.2 2).1, (riFromDeltaV_mono_bounded.2 2).2⟩

/-! ## C10 -/

/-- C10: the unclamped logistic value always lies strictly between
0.35 and 1.1, the clamp in riFromDeltaV never changes the value, and
the bounds 0, 0.35, 1.1 and 1.15 are never attained. -/
theorem riFromDeltaV_clamp_inactive (d : ℝ) :
    0.35 < 0.35 + 0.75 / (1 + Real.exp (d - 1.5)) ∧
    0.35 + 0.75 / (1 + Real.exp (d - 1.5)) < 1.1 ∧
    riFromDeltaV d = 0.35 + 0.75 / (1 + Real.exp (d - 1.5)) ∧
    riFromDeltaV d ≠ 0 ∧ riFromDeltaV d ≠ 0.35 ∧
    riFromDeltaV d ≠ 1.1 ∧ riFromDeltaV d ≠ 1.15 := by
  have he : 0 < Real.exp (d - 1.5) := Real.exp_pos _
  have hfrac0 : 0 < 0.75 / (1 + Real.exp (d - 1.5)) := by positivity
  have hfrac1 : 0.75 / (1 + Real.exp (d - 1.5)) < 0.75 :=
    div_lt_self (by norm_num) (by linarith)
  have h1 : 0.35 < 0.35 + 0.75 / (1 + Real.exp (d - 1.5)) := by linarith
  have h2 : 0.35 + 0.75 / (1 + Real.exp (d - 1.5)) < 1.1 := by linarith
  have heq : riFromDeltaV d = 0.35 + 0.75 / (1 + Real.exp (d - 1.5)) := by
    show min 1.15 (max 0 (0.35 + 0.75 / (1 + Real.exp (d - 1.5)))) = _
    rw [max_eq_right (by linarith), min_eq_right (by linarith)]
  refine ⟨h1, h2, heq, ?_, ?_, ?_, ?_⟩
  · rw [heq]; exact ne_of_gt (by linarith)
  · rw [heq]; exact ne_of_gt h1
  · rw [heq]; exact ne_of_lt h2
  · rw [heq]; exact ne_of_lt (by linarith)

/-! ## C4 -/

/-- C4 (amended): the density factor is 1 at exponent 0, is 1 at zero
rest for every work value of at least 1 and every exponent, and for a
nonnegative exponent is non-decreasing in work and non-increasing in
rest over nonnegative arguments. -/
theorem densityFactor_spec :
    (∀ w r : ℝ, 0 ≤ w → 0 ≤ r → Rich.densityFactor w r 0 = 1) ∧
    (∀ w : ℝ, 1 ≤ w → ∀ e : ℝ, Rich.densityFactor w 0 e = 1) ∧
    (∀ w1 w2 r e : ℝ, 0 ≤ w1 → w1 ≤ w2 → 0 ≤ r → 0 ≤ e →
      Rich.densityFactor w1 r e ≤ Rich.densityFactor w2 r e) ∧
    (∀ w r1 r2 e : ℝ, 0 ≤ w → 0 ≤ r1 → r1 ≤ r2 → 0 ≤ e →
      Rich.densityFactor w r2 e ≤ Rich.densityFactor w r1 e) := by
  refine ⟨fun w r _ _ => Real.rpow_zero _, fun w h1 e => ?_, ?_, ?_⟩
  · show (w / max 1 (w + 0)) ^ e = 1
    rw [add_zero, max_eq_right h1, div_self (by linarith), Real.one_rpow]
  · intro w1 w2 r e hw1 hw12 hr he
    have hd1 : (0 : ℝ) < max 1 (w1 + r) := lt_of_lt_of_le one_pos (le_max_left _ _)
    have hd2 : (0 : ℝ) < max 1 (w2 + r) := lt_of_lt_of_le one_pos (le_max_left _ _)
    have hbase : w1 / max 1 (w1 + r) ≤ w2 / max 1 (w2 + r) := by
      rw [div_le_div_iff₀ hd1 hd2]
      rcases le_total (w2 + r) 1 with h | h
      · rw [max_eq_left h, max_eq_left (by linarith : w1 + r ≤ 1)]
        nlinarith
      · rcases le_total (w1 + r) 1 with h1 | h1
        · rw [max_eq_right h, max_eq_left h1]
          nlinarith [mul_nonneg (sub_nonneg.2 hw12)
            (show (0 : ℝ) ≤ 1 - w1 by linarith), mul_nonneg hw1 hr]
        · rw [max_eq_right h, max_eq_right h1]
          nlinarith [mul_le_mul_of_nonneg_right hw12 hr]
    exact Real.rpow_le_rpow (div_nonneg hw1 hd1.le) hbase he
  · intro w r1 r2 e hw hr1 hr12 he
    have hd1 : (0 : ℝ) < max 1 (w + r1) := lt_of_lt_of_le one_pos (le_max_left _ _)
    have hmax : max 1 (w + r1) ≤ max 1 (w + r2) :=
      max_le_max le_rfl (by linarith)
    have hbase : w / max 1 (w + r2) ≤ w / max 1 (w + r1) := by gcongr
    exact Real.rpow_le_rpow (div_nonneg hw (le_trans hd1.le hmax)) hbase he

/-- C4 witness: each conjunct instantiated at concrete arguments. -/
theorem densityFactor_spec_witness :
    Rich.densityFactor 2 3 0 = 1 ∧ Rich.densityFactor 5 0 2 = 1 ∧
    Rich.densityFactor 1 1 1 ≤ Rich.densityFactor 2 1 1 ∧
    Rich.densityFactor 1 2 1 ≤ Rich.densityFactor 1 1 1 :=
  ⟨densityFactor_spec.1 2 3 (by norm_num) (by norm_num),
    densityFactor_spec.2.1 5 (by norm_num) 2,
    densityFactor_spec.2.2.1 1 2 1 1 (by norm_num) (by norm_num) (by norm_num)
      (by norm_num),
    densityFactor_spec.2.2.2 1 1 2 1 (by norm_num) (by norm_num) (by norm_num)
      (by norm_num)⟩

/-- C4 counterexample: at work 0.5, rest 0 and exponent 1 the density
factor is 0.5, so it is not 1 for every positive work value; and with
the exponent fixed at -1 the factor is decreasing in work from 1 to 2
at rest 1, so monotonicity in work does not hold for every fixed
exponent. -/
theorem densityFactor_claim_false :
    Rich.densityFactor 0.5 0 1 ≠ 1 ∧
      ¬ Rich.densityFactor 1 1 (-1) ≤ Rich.densityFactor 2 1 (-1) := by
  constructor
  · show ((0.5 : ℝ) / max 1 (0.5 + 0)) ^ (1 : ℝ) ≠ 1
    rw [Real.rpow_one, add_zero, max_eq_left (by norm_num)]
    norm_num
  · have e1 : Rich.densityFactor 1 1 (-1) = 2 := by
      show ((1 : ℝ) / max 1 (1 + 1)) ^ (-1 : ℝ) = 2
      rw [max_eq_right (by norm_num : (1 : ℝ) ≤ 1 + 1),
        show (1 : ℝ) / (1 + 1) = 2⁻¹ by norm_num,
        Real.rpow_neg (by norm_num), Real.rpow_one]
      norm_num
    have e2 : Rich.densityFactor 2 1 (-1) = 3 / 2 := by
      show ((2 : ℝ) / max 1 (2 + 1)) ^ (-1 : ℝ) = 3 / 2
      rw [max_eq_right (by norm_num : (1 : ℝ) ≤ 2 + 1),
        show (2 : ℝ) / (2 + 1) = (3 / 2)⁻¹ by norm_num,
        Real.rpow_neg (by norm_num), Real.rpow_one]
      norm_num
    rw [e1, e2]
    norm_num

/-! ## C5 -/

/-- Dividing every fraction by the same scalar divides the fraction
sum by that scalar. -/
lemma sumFractions_map_div (rows : List Simple.GradeFraction) (s : ℝ) :
    Simple.sumFractions (rows.map fun r => ⟨r.grade, r.fraction / s⟩) =
      Simple.sumFractions rows / s := by
  rw [Simple.sumFractions, Simple.sumFractions,
    foldl_add_map_sum (fun r : Simple.GradeFraction => r.fraction)
      (rows.map fun r => ⟨r.grade, r.fraction / s⟩) 0,
    foldl_add_map_sum (fun r : Simple.GradeFraction => r.fraction) rows 0,
    zero_add, zero_add, List.map_map]
  show (rows.map fun r => r.fraction / s).sum =
    (rows.map fun r => r.fraction).sum / s
  simp only [div_eq_mul_inv]
  exact List.sum_map_mul_right rows (fun r => r.fraction) s⁻¹

/-- C5 (amended): whenever the raw fractions sum to a positive value,
the renormalized fractions sum to exactly 1. -/
theorem normalizeFractions_sum (rows : List Simple.GradeFraction)
    (h : 0 < Simple.sumFractions rows) :
    Simple.sumFractions (Simple.normalizeFractions rows) = 1 := by
  have hpos : 0 < rows.foldl (fun a r => a + r.fraction) 0 := h
  have hsafe : (if 0 < rows.foldl (fun a r => a + r.fraction) 0 then
      rows.foldl (fun a r => a + r.fraction) 0 else 1) =
      rows.foldl (fun a r => a + r.fraction) 0 := if_pos hpos
  have hnorm : Simple.normalizeFractions rows =
      rows.map fun r =>
        ⟨r.grade, r.fraction / rows.foldl (fun a r => a + r.fraction) 0⟩ := by
    simp only [Simple.normalizeFractions, hsafe]
  rw [hnorm, sumFractions_map_div rows]
  exact div_self (ne_of_gt hpos)

/-- C5 witness: the default grade-fraction rows have a positive sum
and renormalize to a sum of exactly 1. -/
theorem normalizeFractions_sum_witness :
    0 < Simple.sumFractions [⟨6, 0.4⟩, ⟨7, 0.4⟩, ⟨8, 0.2⟩] ∧
    Simple.sumFractions
      (Simple.normalizeFractions [⟨6, 0.4⟩, ⟨7, 0.4⟩, ⟨8, 0.2⟩]) = 1 := by
  have h : 0 < Simple.sumFractions [⟨6, 0.4⟩, ⟨7, 0.4⟩, ⟨8, 0.2⟩] := by
    norm_num [Simple.sumFractions]
  exact ⟨h, normalizeFractions_sum _ h⟩

/-- C5 counterexample: a single row with fraction 0 renormalizes to a
sum of 0, not 1. -/
theorem normalizeFractions_zero_sum :
    Simple.sumFractions (Simple.normalizeFractions [⟨6, 0⟩]) ≠ 1 := by
  norm_num [Simple.normalizeFractions, Simple.sumFractions]

/-! ## C2 -/

/-- The hangboard example of the spec: body 70 kg, added 10 kg, 15 mm
edge, half crimp, 10 s hangs, 5 reps, no rest between reps, no
calibration, density exponent 0.5, edge exponent 0.45. -/
def exampleHangRow : HangboardRow :=
  ⟨70, 10, 15, Grip.half, 10, 5, 0, none, 0.5, 0.45⟩

/-- The 20th power of the example edge factor is the 9th power of 4/3,
since the exponent is 0.45 = 9/20. -/
lemma relEdge_example_pow :
    relEdge 15 0.45 ^ (20 : ℕ) = (4 / 3 : ℝ) ^ (9 : ℕ) := by
  have h0 : (0 : ℝ) ≤ 4 / 3 := by norm_num
  have hb : relEdge 15 0.45 = (4 / 3 : ℝ) ^ (0.45 : ℝ) := by
    rw [relEdge]
    norm_num
  rw [hb, ← Real.rpow_natCast ((4 / 3 : ℝ) ^ (0.45 : ℝ)) 20,
    ← Real.rpow_mul h0,
    show (0.45 * ((20 : ℕ) : ℝ) : ℝ) = ((9 : ℕ) : ℝ) by norm_num,
    Real.rpow_natCast]

/-- The example edge factor is positive. -/
lemma relEdge_example_pos : 0 < relEdge 15 0.45 := by
  rw [relEdge]
  exact Real.rpow_pos_of_pos (by norm_num) _

/-- A lower bound on the example edge factor. -/
lemma relEdge_example_lb : (1.1382 : ℝ) < relEdge 15 0.45 := by
  by_contra hle
  push_neg at hle
  have h20 : relEdge 15 0.45 ^ (20 : ℕ) ≤ (1.1382 : ℝ) ^ (20 : ℕ) :=
    pow_le_pow_left₀ relEdge_example_pos.le hle 20
  rw [relEdge_example_pow] at h20
  norm_num at h20

/-- An upper bound on the example edge factor. -/
lemma relEdge_example_ub : relEdge 15 0.45 < 1.1383 := by
  by_contra hle
  push_neg at hle
  have h20 : (1.1383 : ℝ) ^ (20 : ℕ) ≤ relEdge 15 0.45 ^ (20 : ℕ) :=
    pow_le_pow_left₀ (by norm_num) hle 20
  rw [relEdge_example_pow] at h20
  norm_num at h20

/-- The example per-set TLI lies strictly between 39.04 and 39.05. -/
lemma hangboard_example_bounds :
    39.04 < (Rich.hangboardSetTLI exampleHangRow).perSet ∧
      (Rich.hangboardSetTLI exampleHangRow).perSet < 39.05 := by
  have hlb := relEdge_example_lb
  have hub := relEdge_example_ub
  have hpos := relEdge_example_pos
  have hd : (0 : ℝ) < 90 * relEdge 15 0.45 := by nlinarith
  have hDF : (((10 : ℝ) * 5) /
      max 1 (10 * 5 + 0 * max 0 ((5 : ℝ) - 1))) ^ (0.5 : ℝ) = 1 := by
    rw [show ((10 : ℝ) * 5 + 0 * max 0 ((5 : ℝ) - 1)) = 50 by norm_num,
      max_eq_right (by norm_num : (1 : ℝ) ≤ 50)]
    norm_num [Real.one_rpow]
  have h1 : (Rich.hangboardSetTLI exampleHangRow).perSet =
      clamp (80 / (90 * relEdge 15 0.45)) 0 1.2 * 50 := by
    simp only [Rich.hangboardSetTLI, exampleHangRow, Option.getD, gripMult]
    rw [hDF]
    norm_num
  have hv_lb : (0.7 : ℝ) < 80 / (90 * relEdge 15 0.45) := by
    rw [lt_div_iff₀ hd]
    nlinarith
  have hv_ub : 80 / (90 * relEdge 15 0.45) < 1 := by
    rw [div_lt_one hd]
    nlinarith
  have hclamp : clamp (80 / (90 * relEdge 15 0.45)) 0 1.2 =
      80 / (90 * relEdge 15 0.45) := by
    rw [clamp, max_eq_right (by linarith), min_eq_right (by linarith)]
  rw [h1, hclamp]
  constructor
  · rw [div_mul_eq_mul_div, lt_div_iff₀ hd]
    nlinarith
  · rw [div_mul_eq_mul_div, div_lt_iff₀ hd]
    nlinarith

/-- C2 (amended): the hangboard row formula computes mvc20, mvcEdge,
RI, TUT, totalRest and DF as stated, and the spec's example row yields
a per-set value of approximately 39.05 (strictly between 39.04 and
39.05), not 39.2: the correct edge factor is (4/3)^0.45, slightly
above 1.1382. -/
theorem hangboardSetTLI_spec :
    (∀ row : HangboardRow, (Rich.hangboardSetTLI row).perSet =
      clamp ((row.bodyKg + row.addedKg) /
          (row.mvc20kg.getD (row.bodyKg + 20) *
            (20 / row.edgeMM) ^ row.kEdgeExp * gripMult row.grip)) 0 1.2 *
        (row.durationSec * row.reps) *
        ((row.durationSec * row.reps) /
          max 1 (row.durationSec * row.reps +
            row.restBetweenRepsSec * max 0 (row.reps - 1))) ^
          row.densityExpHB) ∧
    gripMult Grip.full = 1.1 ∧ gripMult Grip.openHand = 0.85 ∧
    gripMult Grip.half = 1 ∧
    39.04 < (Rich.hangboardSetTLI exampleHangRow).perSet ∧
    (Rich.hangboardSetTLI exampleHangRow).perSet < 39.05 :=
  ⟨fun _ => rfl, rfl, rfl, by norm_num [gripMult],
    hangboard_example_bounds.1, hangboard_example_bounds.2⟩

/-- C2 counterexample: the example per-set value differs from 39.2 by
more than 0.1, so the spec's stated approximate value 39.2 is not the
value the code computes. -/
theorem hangboardSetTLI_example_not_39_2 :
    0.1 < |(Rich.hangboardSetTLI exampleHangRow).perSet - 39.2| := by
  have h := hangboard_example_bounds.2
  rw [abs_of_neg
    (by linarith : (Rich.hangboardSetTLI exampleHangRow).perSet - 39.2 < 0)]
  linarith

end
